import Mathlib

/-!
# Verification of the quiz-chain solver (`agent/quiz_solver.py` and friends)

Shallow embedding of the executable code of the repository's quiz solver:
the chain controller `QuizSolver.solve_quiz_chain`, the single-step flow
`QuizSolver.solve_single_quiz` / `QuizSolver.submit_answer`, the helpers
`clean_code_fences` and `find_origin_from_url`, and the token-extraction
stage of `WebScraper.scrape_text`.

Note on sources: `agent/quiz_solver.py` opens with a large module docstring
that contains an *earlier* revision of the class (with a `max_steps = 40`
budget and an email/secret check).  The executable definitions start after
that docstring; the embedding below follows the executable code.

Strings from Python are modelled as `List Char`; network effects are made
explicit (the per-step solver becomes an oracle argument, HTTP responses
become explicit inputs, and the list of URLs for which the per-step solver
was invoked is returned as a trace).
-/

namespace QuizSolver

/-- Outcome of one call of `QuizSolver.solve_single_quiz` as seen by the
chain controller: either the call raised an exception (carrying the
rendered message `str(e)`), or it returned a result whose `next_url` entry
is `none` (Python `None`) or a string. -/
inductive StepOutcome where
  | fail : String → StepOutcome
  | next : Option String → StepOutcome
deriving DecidableEq, Repr

/-- The dictionary `{"message": ..., "quizzes_solved": ...}` that
`solve_quiz_chain` returns. -/
structure ChainResult where
  message : String
  quizzes_solved : Nat
deriving DecidableEq, Repr

/-- The four `return` sites of the executable `solve_quiz_chain`
(`quiz_solver.py` lines 450-466), before the message strings are rendered. -/
inductive ChainOutcome where
  | done : Nat → ChainOutcome
  | loopDetected : Nat → ChainOutcome
  | failed : Nat → String → ChainOutcome
  | finalSolved : Nat → ChainOutcome
deriving DecidableEq, Repr

/-- Rendering of each `return` site as the literal dictionary built by the
source: `{"message": "Done"|"Loop detected"|f"Failed at step {solved+1}: {e}"|
"Final quiz solved.", "quizzes_solved": solved}`. -/
def ChainOutcome.toResult : ChainOutcome → ChainResult
  | .done solved => ⟨"Done", solved⟩
  | .loopDetected solved => ⟨"Loop detected", solved⟩
  | .failed solved e =>
      ⟨"Failed at step " ++ toString (solved + 1) ++ ": " ++ e, solved⟩
  | .finalSolved solved => ⟨"Final quiz solved.", solved⟩

/-- The `while current:` loop of the executable `solve_quiz_chain`
(`quiz_solver.py` lines 450-466).  One recursive call is one arrival at the
top of the `while` loop.  `step` abstracts `solve_single_quiz` (with the
email and secret already applied); `fuel` bounds the number of iterations we
unfold (the Python loop itself has no bound), with `none` as first component
meaning the loop was still running after `fuel` iterations.  The second
component is the trace: the list of URLs, in order, for which
`solve_single_quiz` (hence the network) was invoked.  Python truthiness of
`current` is `current ≠ ""` for the string/None values that occur here. -/
def chainLoop (step : String → StepOutcome) :
    Nat → String → List String → Nat → Option ChainOutcome × List String
  | 0, _, _, _ => (none, [])
  | fuel + 1, current, visited, solved =>
    if current = "" then (some (.done solved), [])
    else if current ∈ visited then (some (.loopDetected solved), [])
    else
      match step current with
      | .fail e => (some (.failed solved e), [current])
      | .next none => (some (.finalSolved (solved + 1)), [current])
      | .next (some u) =>
        if u = "" then (some (.finalSolved (solved + 1)), [current])
        else
          let r := chainLoop step fuel u (current :: visited) (solved + 1)
          (r.1, current :: r.2)

/-- `QuizSolver.solve_quiz_chain(start_url, email, secret)` of the
executable code (`quiz_solver.py` lines 445-466): initializes
`current := start_url`, `visited := set()`, `solved := 0` and runs the loop,
passing `email` and `secret` unchanged into every `solve_single_quiz` call.
There is no credential check and no step budget in the executable code. -/
def solve_quiz_chain (solver : String → String → String → StepOutcome)
    (fuel : Nat) (start_url email secret : String) :
    Option ChainOutcome × List String :=
  chainLoop (fun u => solver u email secret) fuel start_url [] 0

/-- `solve_quiz_chain` with the outcome rendered to the returned dictionary,
as the caller (`main.py`) sees it. -/
def solve_quiz_chain_result (solver : String → String → String → StepOutcome)
    (fuel : Nat) (start_url email secret : String) :
    Option ChainResult × List String :=
  let r := solve_quiz_chain solver fuel start_url email secret
  (r.1.map ChainOutcome.toResult, r.2)

/-- A per-step solver whose server reply always carries a fresh next URL
(every URL is extended by one character, so all URLs in the run are
distinct); it ignores the credentials. -/
def freshSolver : String → String → String → StepOutcome :=
  fun u _ _ => .next (some (u ++ "x"))

/-- A per-step solver that immediately reports a solved final quiz
(its reply has no next URL); it ignores the credentials. -/
def finalSolver : String → String → String → StepOutcome :=
  fun _ _ _ => .next none

/-- A per-step solver whose server reply always names the fixed next URL
"a", so that a run starting from "a" revisits it; it ignores the
credentials. -/
def loopSolver : String → String → String → StepOutcome :=
  fun _ _ _ => .next (some "a")

/-- A per-step solver that always raises (models `solve_single_quiz`
throwing, e.g. a network error); it ignores the credentials. -/
def failSolver : String → String → String → StepOutcome :=
  fun _ _ _ => .fail "boom"

/-! ## URL parsing (`urllib.parse` as used by `quiz_solver.py`)

`find_origin_from_url` calls `urlparse` and reads `.scheme` and `.netloc`;
`submit_answer` then calls `urljoin(origin, SUBMIT_PATH)`.  The CPython
behaviour of those two stdlib primitives, for the fragment that is used, is
modelled on `List Char`: `urlsplit` recognizes a scheme as a nonempty
prefix before the first ":" that starts with an ASCII letter and consists
of letters, digits and "+", "-", "." (the scheme is lowercased), and a
netloc only after a leading "//", running up to the next "/", "?" or "#".
-/

/-- Characters CPython accepts inside a URL scheme
(`scheme_chars`: ASCII letters, digits, "+", "-", "."), by code point. -/
def isSchemeCharN (n : Nat) : Bool :=
  (65 ≤ n && n ≤ 90) || (97 ≤ n && n ≤ 122) || (48 ≤ n && n ≤ 57)
    || n == 43 || n == 45 || n == 46

/-- Character version of `isSchemeCharN`. -/
def isSchemeChar (c : Char) : Bool :=
  isSchemeCharN c.toNat

/-- ASCII letter test (`url[0].isascii() and url[0].isalpha()` in CPython's
`urlsplit`). -/
def isAsciiAlpha (c : Char) : Bool :=
  (65 ≤ c.toNat && c.toNat ≤ 90) || (97 ≤ c.toNat && c.toNat ≤ 122)

/-- Split a character list at the first ":" (CPython's `url.find(':')`):
`some (pre, post)` with the colon removed, or `none` when there is no
colon. -/
def splitOnColon : List Char → Option (List Char × List Char)
  | [] => none
  | c :: rest =>
    if c = ':' then some ([], rest)
    else (splitOnColon rest).map fun p => (c :: p.1, p.2)

/-- Scheme extraction of CPython's `urlsplit`: if the text before the first
":" is nonempty, starts with an ASCII letter and consists of scheme
characters, it is the (lowercased) scheme and the rest follows the colon;
otherwise there is no scheme. -/
def schemeSplit (s : List Char) : List Char × List Char :=
  match splitOnColon s with
  | none => ([], s)
  | some (pre, post) =>
    match pre with
    | [] => ([], s)
    | c :: cs =>
      if isAsciiAlpha c && (c :: cs).all isSchemeChar then
        ((c :: cs).map Char.toLower, post)
      else ([], s)

/-- Delimiters that end a netloc in CPython's `urlsplit`. -/
def isNetlocEnd (c : Char) : Bool :=
  c = '/' || c = '?' || c = '#'

/-- Netloc extraction of CPython's `urlsplit` (applied after scheme
removal): present only after a leading "//", running up to the next "/",
"?" or "#". -/
def netlocSplit (s : List Char) : List Char × List Char :=
  if s.take 2 = "//".toList then
    ((s.drop 2).takeWhile (fun c => !isNetlocEnd c),
     (s.drop 2).dropWhile (fun c => !isNetlocEnd c))
  else ([], s)

/-- The `.scheme` component of `urlparse(url)`. -/
def urlScheme (url : List Char) : List Char :=
  (schemeSplit url).1

/-- The `.netloc` component of `urlparse(url)`. -/
def urlNetloc (url : List Char) : List Char :=
  (netlocSplit (schemeSplit url).2).1

/-- `DEFAULT_BASE` of `quiz_solver.py` (line 355). -/
def DEFAULT_BASE : List Char :=
  "https://tds-llm-analysis.s-anand.net".toList

/-- `SUBMIT_PATH` of `quiz_solver.py` (line 356). -/
def SUBMIT_PATH : List Char :=
  "/submit".toList

/-- `find_origin_from_url` (`quiz_solver.py` lines 366-368):
`f"{p.scheme}://{p.netloc}"` when both scheme and netloc are present (i.e.
truthy), else `DEFAULT_BASE`. -/
def find_origin_from_url (url : List Char) : List Char :=
  if urlScheme url ≠ [] ∧ urlNetloc url ≠ [] then
    urlScheme url ++ ':' :: '/' :: '/' :: urlNetloc url
  else DEFAULT_BASE

/-- CPython's `urljoin(base, ref)` for an absolute-path reference (a `ref`
beginning with "/", the only shape used here: `SUBMIT_PATH`): the result
keeps the base's scheme and netloc and replaces the path by `ref`; a base
without a netloc (which `find_origin_from_url` never produces) yields
`ref` itself. -/
def urljoin (base ref : List Char) : List Char :=
  if urlNetloc base ≠ [] then
    (if urlScheme base ≠ [] then urlScheme base ++ [':'] else [])
      ++ '/' :: '/' :: urlNetloc base ++ ref
  else ref

/-! ## The submission client (`QuizSolver.submit_answer`, lines 407-438)

The JSON values that can appear in the server's reply and in the payload
are modelled by `JVal` (a parsed JSON `null` and Python's `None` coincide,
as they do after `json.loads`).  The network POST is made explicit: the
`PostRecord` component of the result is the request that was sent, and the
HTTP response is an explicit input. -/

/-- Scalar JSON/Python values occurring in submission payloads and
replies. -/
inductive JVal where
  | null : JVal
  | bool : Bool → JVal
  | str : String → JVal
  | num : Int → JVal
deriving DecidableEq, Repr

/-- Discriminator: is this value a string? -/
def JVal.isStr : JVal → Bool
  | .str _ => true
  | _ => false

/-- Python truthiness of a `JVal` (`None`, `False`, `""` and `0` are
falsy). -/
def JVal.truthy : JVal → Bool
  | .null => false
  | .bool b => b
  | .str s => s ≠ ""
  | .num n => n ≠ 0

/-- Python's `a or b`: `a` when truthy, else `b`. -/
def pyor (a b : JVal) : JVal :=
  if a.truthy then a else b

/-- First value bound to key `k` in a parsed JSON object, if the key is
present. -/
def jfind : List (String × JVal) → String → Option JVal
  | [], _ => none
  | (k', v) :: rest, k => if k' = k then some v else jfind rest k

/-- Python's `j.get(k)`: the value when present, else `None` (`JVal.null`,
which is also what a present JSON `null` parses to). -/
def jget (j : List (String × JVal)) (k : String) : JVal :=
  (jfind j k).getD .null

/-- Python's `j.get(k, default)`. -/
def jgetD (j : List (String × JVal)) (k : String) (d : JVal) : JVal :=
  (jfind j k).getD d

/-- The normalized dictionary `submit_answer` builds from the JSON reply
(`quiz_solver.py` lines 434-438). -/
structure SubmissionResult where
  correct : JVal
  next_url : JVal
  raw : List (String × JVal)
deriving DecidableEq, Repr

/-- Reply parsing of `submit_answer`: `j.get("correct", False)` and
`j.get("url") or j.get("next") or j.get("next_url")`. -/
def parseSubmitReply (j : List (String × JVal)) : SubmissionResult :=
  { correct := jgetD j "correct" (.bool false)
  , next_url := pyor (jget j "url") (pyor (jget j "next") (jget j "next_url"))
  , raw := j }

/-- The JSON body `{email, secret, url, answer}` that `submit_answer`
POSTs (`quiz_solver.py` lines 414-419). -/
structure SubmitPayload where
  email : String
  secret : String
  url : List Char
  answer : JVal
deriving DecidableEq, Repr

/-- The one network POST `submit_answer` performs: target URL and body. -/
structure PostRecord where
  url : List Char
  payload : SubmitPayload
deriving DecidableEq, Repr

/-- The HTTP response to the POST, as an explicit input. -/
structure HttpResponse where
  status : Nat
  body : List (String × JVal)
deriving DecidableEq, Repr

/-- `r.raise_for_status()` raising on a 4xx/5xx status. -/
inductive SubmitError where
  | httpStatus : Nat → SubmitError
deriving DecidableEq, Repr

/-- `QuizSolver.submit_answer` (`quiz_solver.py` lines 407-438): resolves
`urljoin(find_origin_from_url(quiz_page_url), SUBMIT_PATH)`, builds the
payload, POSTs it unconditionally (the returned `PostRecord` is the request
that was sent — there is no validation of the resolved URL in the code),
then raises on a bad status and otherwise parses the JSON reply. -/
def submit_answer (quiz_page_url : List Char) (email secret : String)
    (answer : JVal) (resp : HttpResponse) :
    PostRecord × Except SubmitError SubmissionResult :=
  let origin := find_origin_from_url quiz_page_url
  let submit_url := urljoin origin SUBMIT_PATH
  let payload : SubmitPayload :=
    { email := email, secret := secret, url := quiz_page_url, answer := answer }
  (⟨submit_url, payload⟩,
   if 400 ≤ resp.status then .error (.httpStatus resp.status)
   else .ok (parseSubmitReply resp.body))

/-- Does the second list start with the first one? -/
def leadsWith : List Char → List Char → Bool
  | [], _ => true
  | _ :: _, [] => false
  | a :: as, b :: bs => a = b && leadsWith as bs

/-- Does the second list contain the first one as a contiguous
subsequence (Python's `in` on strings)? -/
def containsSeq (needle : List Char) : List Char → Bool
  | [] => leadsWith needle []
  | c :: rest => leadsWith needle (c :: rest) || containsSeq needle rest

/-- Modelled from the claim's words (claim C3 / spec §4.2 step 4): a
"fabricated/placeholder" submission URL is one containing the word
"origin" or a literal "+" concatenation artifact.  Used only to state the
refutation of the claim against the code. -/
def specFabricationIndicator (u : List Char) : Bool :=
  containsSeq ("origin".toList) u || containsSeq ("+".toList) u

/-- Modelled from the claim's words (claim C6): take the next-step URL from
the accepted field names `url`, `next`, `next_url`, accepting the first
one that is *present* in the reply.  Used only to state the refutation of
the claim against the code. -/
def nextUrlFirstPresent (j : List (String × JVal)) : Option JVal :=
  match jfind j "url" with
  | some v => some v
  | none =>
    match jfind j "next" with
    | some v => some v
    | none => jfind j "next_url"

/-! ## Answer normalization in `solve_single_quiz` (lines 440-443)

The executable `solve_single_quiz` submits `str(answer).strip()`, whatever
Python value `compute_answer` returned.  The possible Python values are
modelled by `PyVal`, and `str`/`strip` by `pyStr`/`pyStrip`. -/

/-- Python values an answer computation can produce. -/
inductive PyVal where
  | str : String → PyVal
  | num : Int → PyVal
  | bool : Bool → PyVal
  | none : PyVal
  | list : List PyVal → PyVal
  | dict : List (String × PyVal) → PyVal

/-- ASCII single-quote character (code point 39), built by code point. -/
def squote : String :=
  (Char.ofNat 39).toString

mutual

/-- Python's `repr` of a `PyVal` (escaping inside nested strings is
elided; only the outer shape matters for the claims about it). -/
def pyRepr : PyVal → String
  | .str s => squote ++ s ++ squote
  | .num n => toString n
  | .bool true => "True"
  | .bool false => "False"
  | .none => "None"
  | .list xs => "[" ++ pyReprList xs ++ "]"
  | .dict fs => "\x7b" ++ pyReprFields fs ++ "\x7d"

/-- Comma-separated `repr`s of the elements of a Python list. -/
def pyReprList : List PyVal → String
  | [] => ""
  | [x] => pyRepr x
  | x :: xs => pyRepr x ++ ", " ++ pyReprList xs

/-- Comma-separated `repr`s of the entries of a Python dict. -/
def pyReprFields : List (String × PyVal) → String
  | [] => ""
  | [(k, v)] => squote ++ k ++ squote ++ ": " ++ pyRepr v
  | (k, v) :: fs =>
    squote ++ k ++ squote ++ ": " ++ pyRepr v ++ ", " ++ pyReprFields fs

end

/-- Python's `str()` on a `PyVal`: the string itself for strings, `repr`
otherwise (for numbers, booleans and `None` the two coincide). -/
def pyStr : PyVal → String
  | .str s => s
  | v => pyRepr v

/-- Python's default whitespace set for `str.strip()` (space, tab,
newline, carriage return, vertical tab, form feed). -/
def pyIsSpace (c : Char) : Bool :=
  c = ' ' || c = '\t' || c = '\n' || c = '\r' || c.toNat == 11 || c.toNat == 12

/-- Python's `str.strip()` on a character list: drop whitespace from both
ends. -/
def stripChars (l : List Char) : List Char :=
  ((l.reverse.dropWhile pyIsSpace).reverse).dropWhile pyIsSpace

/-- Python's `str.strip()`. -/
def pyStrip (s : String) : String :=
  String.mk (stripChars s.data)

/-- `QuizSolver.solve_single_quiz` (`quiz_solver.py` lines 440-443) after
the fetch: `computed` is the value `compute_answer` returned for the page
(the fetch and the answer computation are upstream of the property
modelled here), and the submission is `submit_answer(url, email, secret,
str(answer).strip())`. -/
def solve_single_quiz (url : List Char) (email secret : String)
    (computed : PyVal) (resp : HttpResponse) :
    PostRecord × Except SubmitError SubmissionResult :=
  submit_answer url email secret (.str (pyStrip (pyStr computed))) resp

/-! ## `clean_code_fences` (`quiz_solver.py` lines 359-363)

The function applies `re.search` with the pattern

    triple-backtick, optional word-characters-then-newline (a language
    tag), lazy any-characters group, triple-backtick

and returns the stripped group on a match, else the text with all
backticks removed, stripped.  The regex engine's behaviour for this
pattern is implemented directly: the match starts at the first
triple-backtick; the optional tag group participates exactly when the
maximal word-character run after the opening fence is followed by a
newline (any shorter run is followed by a word character, so backtracking
inside the optional group cannot succeed otherwise); the lazy group then
ends at the next triple-backtick.  If no closing fence follows the
consumed tag there is none in the whole remainder either (a tag contains
no backtick and a newline interrupts any straddling fence), so the regex
fails and the backtick-stripping branch runs. -/

/-- ASCII version of the regex class `\w` (the inputs of interest are
ASCII). -/
def isWordCharPy (c : Char) : Bool :=
  c.isAlphanum || c = '_'

/-- The backtick character, built by code point (96). -/
def btick : Char :=
  Char.ofNat 96

/-- Backtick test by code point (code point 96). -/
def isBacktick (c : Char) : Bool :=
  c.toNat == 96

/-- Split at the first triple-backtick: `some (before, after)` with the
fence removed, or `none` when no triple-backtick occurs. -/
def beforeFence : List Char → Option (List Char × List Char)
  | [] => none
  | c :: rest =>
    if c :: rest.take 2 = "```".toList then some ([], rest.drop 2)
    else (beforeFence rest).map fun p => (c :: p.1, p.2)

/-- What remains of the text after the opening fence once the candidate
language tag (the maximal word-character run) is skipped. -/
def fenceTail (afterOpen : List Char) : List Char :=
  afterOpen.drop (afterOpen.takeWhile isWordCharPy).length

/-- The regex group of `clean_code_fences`'s pattern, when the pattern
matches (see the section comment for the engine behaviour this
implements): the optional tag group participates exactly when a newline
follows the maximal word-character run. -/
def fenceInner (s : List Char) : Option (List Char) :=
  match beforeFence s with
  | none => none
  | some (_, afterOpen) =>
    if (fenceTail afterOpen).take 1 = "\n".toList then
      match beforeFence ((fenceTail afterOpen).drop 1) with
      | some (content, _) => some content
      | none => (beforeFence afterOpen).map Prod.fst
    else (beforeFence afterOpen).map Prod.fst

/-- `clean_code_fences` of the executable code (`quiz_solver.py` lines
359-363) on a string argument: the stripped regex group on a match, else
the text with every backtick removed, stripped. -/
def clean_code_fences (text : List Char) : List Char :=
  match fenceInner text with
  | some inner => stripChars inner
  | none => stripChars (text.filter fun c => !isBacktick c)

/-- Modelled from the claim's words (claim C8): a model response wrapped
in a triple-backtick fenced block with language tag `tag` (empty for no
tag) around inner content `inner`. -/
def fencedBlock (tag inner : List Char) : List Char :=
  "```".toList ++ tag ++ '\n' :: (inner ++ '\n' :: "```".toList)

/-! ## Token extraction of `WebScraper.scrape_text`
(`web_scraper.py` lines 49-60)

After fetching and flattening the page to visible text, the code first
searches for a bare uppercase alphanumeric token (regex
`[A-Z0-9]{5,20}` between word boundaries) and returns it; only otherwise
does it search for a token after a "secret"/"Secret" label (regex
`[Ss]ecret`, any non-alphanumerics, then a group of 4 to 30
alphanumerics); if both fail it returns "UNKNOWN".  Both `re.search`es
are implemented directly, by the same backtracking analysis as for
`clean_code_fences`: for the first pattern a match at a position exists
exactly when the position is at a word boundary and the maximal
uppercase-digit run there has length 5 to 20 and is followed by a
non-word character or the end; for the second, the lazy-free gap
`[^A-Za-z0-9]*` always runs to the first alphanumeric, which must start a
run of at least 4 (the group takes at most 30). -/

/-- The regex class `[A-Z0-9]`. -/
def isUpperDigit (c : Char) : Bool :=
  (65 ≤ c.toNat && c.toNat ≤ 90) || c.isDigit

/-- The regex class `[A-Za-z0-9]`. -/
def isAlnumAscii (c : Char) : Bool :=
  isAsciiAlpha c || c.isDigit

/-- A match of `[A-Z0-9]{5,20}` followed by a word boundary, anchored at
the start of `s` (the leading boundary is checked by the caller). -/
def upperTokenAt (s : List Char) : Option (List Char) :=
  let run := s.takeWhile isUpperDigit
  let okEnd :=
    match s.drop run.length with
    | [] => true
    | c :: _ => !isWordCharPy c
  if 5 ≤ run.length ∧ run.length ≤ 20 ∧ okEnd = true then some run
  else none

/-- Leftmost search for the first scrape regex, tracking the previous
character for the leading word boundary. -/
def searchUpperAux : Option Char → List Char → Option (List Char)
  | _, [] => none
  | prev, c :: rest =>
    let boundaryOk :=
      match prev with
      | Option.none => true
      | Option.some p => !isWordCharPy p
    match (if boundaryOk then upperTokenAt (c :: rest) else Option.none) with
    | some r => some r
    | Option.none => searchUpperAux (some c) rest

/-- `re.search` of the bare-uppercase-token regex of `scrape_text`. -/
def searchUpper (s : List Char) : Option (List Char) :=
  searchUpperAux Option.none s

/-- A match of the label regex anchored at the start of `s`: "secret" or
"Secret", a run of non-alphanumerics, then the group of 4 to 30
alphanumerics. -/
def secretTokenAt (s : List Char) : Option (List Char) :=
  match s with
  | [] => none
  | c :: r =>
    if (c = 'S' ∨ c = 's') ∧ r.take 5 = "ecret".toList then
      let after := r.drop 5
      let tok := (after.dropWhile fun a => !isAlnumAscii a).takeWhile isAlnumAscii
      if 4 ≤ tok.length then some (tok.take 30) else none
    else none

/-- `re.search` of the label regex of `scrape_text` (leftmost match). -/
def searchSecretLabel : List Char → Option (List Char)
  | [] => none
  | c :: rest =>
    match secretTokenAt (c :: rest) with
    | some t => some t
    | none => searchSecretLabel rest

/-- The token-extraction stage of `WebScraper.scrape_text`
(`web_scraper.py` lines 49-60), applied to the page's visible text: bare
uppercase token first, then the label-adjacent token, else "UNKNOWN". -/
def scrape_text_extract (text : List Char) : List Char :=
  match searchUpper text with
  | some m => m
  | none =>
    match searchSecretLabel text with
    | some g => g
    | none => "UNKNOWN".toList

end QuizSolver

namespace QuizSolver

theorem chainLoop_fresh_none (fuel : Nat) :
    ∀ (current : String) (visited : List String) (solved : Nat),
      current ≠ "" → (∀ v ∈ visited, v.length < current.length) →
      (chainLoop (fun u => freshSolver u "e" "s") fuel current visited solved).1
        = none := by
  induction fuel with
  | zero => intro current visited solved _ _; rfl
  | succ fuel ih =>
    intro current visited solved hcur hinv
    have hmem : current ∉ visited := by
      intro hm
      exact lt_irrefl _ (hinv current hm)
    rw [chainLoop]
    rw [if_neg hcur, if_neg hmem]
    have hx : ("x" : String).length = 1 := rfl
    have hlen : (current ++ "x").length = current.length + 1 := by
      rw [String.length_append, hx]
    have hne : current ++ "x" ≠ "" := by
      intro h
      have := congrArg String.length h
      rw [hlen] at this
      simp at this
    have hrec := ih (current ++ "x") (current :: visited) (solved + 1) hne
      (by
        intro v hv
        rcases List.mem_cons.mp hv with hv | hv
        · rw [hlen, hv]; omega
        · have := hinv v hv
          rw [hlen]; omega)
    simp only [freshSolver] at hrec ⊢
    simp [hne, hrec]

/-- Bookkeeping facts about one `chainLoop` run: the URLs for which the
per-step solver was invoked are pairwise distinct and none of them was
already visited; on a loop-detected exit the reported count equals the
starting count plus the number of solver invocations (each of which
succeeded); on a step-failure exit it equals that sum minus the one failing
invocation. -/
theorem chainLoop_trace (step : String → StepOutcome) :
    ∀ (fuel : Nat) (current : String) (visited : List String) (solved : Nat),
      (∀ u ∈ (chainLoop step fuel current visited solved).2, u ∉ visited) ∧
      (chainLoop step fuel current visited solved).2.Nodup ∧
      (∀ n, (chainLoop step fuel current visited solved).1
          = some (.loopDetected n) →
        n = solved + (chainLoop step fuel current visited solved).2.length) ∧
      (∀ n e, (chainLoop step fuel current visited solved).1
          = some (.failed n e) →
        n + 1 = solved + (chainLoop step fuel current visited solved).2.length) := by
  intro fuel
  induction fuel with
  | zero =>
    intro current visited solved
    refine ⟨?_, ?_, ?_, ?_⟩ <;> simp [chainLoop]
  | succ fuel ih =>
    intro current visited solved
    by_cases hc : current = ""
    · refine ⟨?_, ?_, ?_, ?_⟩ <;> simp [chainLoop, hc]
    · by_cases hm : current ∈ visited
      · refine ⟨?_, ?_, ?_, ?_⟩ <;> simp [chainLoop, hc, hm]
      · rcases hstep : step current with e | nxt
        · refine ⟨?_, ?_, ?_, ?_⟩ <;> simp [chainLoop, hc, hm, hstep]
        · cases nxt with
          | none =>
            refine ⟨?_, ?_, ?_, ?_⟩ <;> simp [chainLoop, hc, hm, hstep]
          | some u =>
            by_cases hu : u = ""
            · refine ⟨?_, ?_, ?_, ?_⟩ <;> simp [chainLoop, hc, hm, hstep, hu]
            · have hEq : chainLoop step (fuel + 1) current visited solved
                  = ((chainLoop step fuel u (current :: visited) (solved + 1)).1,
                     current
                       :: (chainLoop step fuel u (current :: visited)
                            (solved + 1)).2) := by
                rw [chainLoop]
                simp [hc, hm, hstep, hu]
              obtain ⟨IH1, IH2, IH3, IH4⟩ := ih u (current :: visited) (solved + 1)
              rw [hEq]
              refine ⟨?_, ?_, ?_, ?_⟩
              · intro v hv
                rcases List.mem_cons.mp hv with hv | hv
                · rw [hv]; exact hm
                · intro hcon
                  exact IH1 v hv (List.mem_cons_of_mem _ hcon)
              · exact List.nodup_cons.mpr
                  ⟨fun h => IH1 current h (List.mem_cons_self _ _), IH2⟩
              · intro n h
                have := IH3 n h
                simp only [List.length_cons]
                omega
              · intro n e h
                have := IH4 n e h
                simp only [List.length_cons]
                omega

/-- C1: the claim says a run of `solve_quiz_chain` on a chain whose server
reply always carries a fresh next URL terminates after exactly the fixed
step budget with a budget-exhausted result.  The executable code has no
step budget (the `max_steps = 40` bound exists only in the module
docstring's earlier revision), and this theorem evaluates the code at the
failing input: with the always-fresh solver the loop is still running after
any number `fuel` of iterations — it never terminates, and in particular
never returns a budget-exhausted result. -/
theorem C1_no_step_budget (fuel : Nat) :
    (solve_quiz_chain freshSolver fuel "https://h/q1" "e@x" "sec").1 = none :=
  chainLoop_fresh_none fuel "https://h/q1" [] 0 (by decide)
    (by intro v hv; cases hv)

/-- C2: if the current URL is already in the visited set at the top of an
iteration, the chain terminates immediately with the non-error result
`{"message": "Loop detected", "quizzes_solved": solved}` and the per-step
solver is not invoked for that URL (empty trace, for every solver); and in
any run that ends with loop detection the reported `quizzes_solved` equals
the number of distinct per-step solver invocations, all of which completed
before the repeat. -/
theorem C2_repeat_url_terminates :
    (∀ (step : String → StepOutcome) (fuel : Nat) (current : String)
        (visited : List String) (solved : Nat),
        current ≠ "" → current ∈ visited →
        chainLoop step (fuel + 1) current visited solved
          = (some (.loopDetected solved), []) ∧
        ChainOutcome.toResult (.loopDetected solved)
          = ⟨"Loop detected", solved⟩)
    ∧
    (∀ (solver : String → String → String → StepOutcome) (fuel : Nat)
        (start email secret : String) (n : Nat),
        (solve_quiz_chain solver fuel start email secret).1
          = some (.loopDetected n) →
        (solve_quiz_chain solver fuel start email secret).2.length = n ∧
        (solve_quiz_chain solver fuel start email secret).2.Nodup) := by
  constructor
  · intro step fuel current visited solved hc hm
    constructor
    · rw [chainLoop]
      rw [if_neg hc, if_pos hm]
    · rfl
  · intro solver fuel start email secret n h
    simp only [solve_quiz_chain] at h ⊢
    obtain ⟨_, h2, h3, _⟩ :=
      chainLoop_trace (fun u => solver u email secret) fuel start [] 0
    have := h3 n h
    exact ⟨by omega, h2⟩

/-- C2 witness: the loop-detection exit evaluated on concrete runs — a
revisited URL stops the chain at once with "Loop detected", and a run with
`loopSolver` from "a" detects the repeat after one solved step. -/
theorem C2_repeat_url_terminates_witness :
    (chainLoop (fun u => loopSolver u "e" "s") 3 "a" ["a"] 7
        = (some (.loopDetected 7), []))
    ∧ ((solve_quiz_chain loopSolver 5 "a" "e" "s").2.length = 1
        ∧ (solve_quiz_chain loopSolver 5 "a" "e" "s").2.Nodup) :=
  ⟨(C2_repeat_url_terminates.1 (fun u => loopSolver u "e" "s") 2 "a" ["a"] 7
      (by decide) (by simp)).1,
   C2_repeat_url_terminates.2 loopSolver 5 "a" "e" "s" 1 (by decide)⟩

/-- C4: the claim says a call of `solve_quiz_chain` with an absent email or
secret fails with a `ConfigurationError`-class error before any network
call.  The executable code has no credential check (the check exists only
in the module docstring's earlier revision): this theorem evaluates the
code at the failing input — with empty email and secret the per-step solver
is still invoked for the start URL (the trace is nonempty, i.e. a network
fetch/submission happens) and the chain returns a normal
"Final quiz solved." result instead of failing. -/
theorem C4_no_credential_check :
    solve_quiz_chain finalSolver 5 "https://h/q" "" ""
        = (some (.finalSolved 1), ["https://h/q"])
    ∧ (solve_quiz_chain_result finalSolver 5 "https://h/q" "" "").1
        = some ⟨"Final quiz solved.", 1⟩ := by
  constructor
  · decide
  · rfl

/-- C5: if the per-step solver raises at a state with `k` steps solved (the
(k+1)-th step), the chain aborts immediately and returns the structured
result `{"message": "Failed at step " ++ toString (k+1) ++ ": " ++ e,
"quizzes_solved": k}` — no further URL is solved after the failure (the
trace of the remaining run is just the failing URL); and in any run that
ends with a step failure reporting `quizzes_solved = n`, exactly `n + 1`
distinct per-step invocations happened (the `n` successful steps plus the
failing one). -/
theorem C5_step_failure_aborts :
    (∀ (step : String → StepOutcome) (fuel : Nat) (current : String)
        (visited : List String) (k : Nat) (e : String),
        current ≠ "" → current ∉ visited → step current = .fail e →
        chainLoop step (fuel + 1) current visited k
          = (some (.failed k e), [current]) ∧
        ChainOutcome.toResult (.failed k e)
          = ⟨"Failed at step " ++ toString (k + 1) ++ ": " ++ e, k⟩)
    ∧
    (∀ (solver : String → String → String → StepOutcome) (fuel : Nat)
        (start email secret : String) (n : Nat) (e : String),
        (solve_quiz_chain solver fuel start email secret).1
          = some (.failed n e) →
        (solve_quiz_chain solver fuel start email secret).2.length = n + 1 ∧
        (solve_quiz_chain solver fuel start email secret).2.Nodup) := by
  constructor
  · intro step fuel current visited k e hc hm hstep
    constructor
    · rw [chainLoop]
      rw [if_neg hc, if_neg hm, hstep]
    · rfl
  · intro solver fuel start email secret n e h
    simp only [solve_quiz_chain] at h ⊢
    obtain ⟨_, h2, _, h4⟩ :=
      chainLoop_trace (fun u => solver u email secret) fuel start [] 0
    have := h4 n e h
    exact ⟨by omega, h2⟩

/-- C5 witness: the failure exit evaluated on concrete runs — a step that
raises "boom" at a state with 4 steps solved aborts with
"Failed at step 5: boom" and count 4, and a full run with `failSolver`
fails at step 1 with a one-element trace. -/
theorem C5_step_failure_aborts_witness :
    (chainLoop (fun u => failSolver u "e" "s") 9 "b" ["a"] 4
          = (some (.failed 4 "boom"), ["b"])
        ∧ ChainOutcome.toResult (.failed 4 "boom")
          = ⟨"Failed at step " ++ toString (4 + 1) ++ ": " ++ "boom", 4⟩)
    ∧ ((solve_quiz_chain failSolver 5 "b" "e" "s").2.length = 0 + 1
        ∧ (solve_quiz_chain failSolver 5 "b" "e" "s").2.Nodup) :=
  ⟨C5_step_failure_aborts.1 (fun u => failSolver u "e" "s") 8 "b" ["a"] 4 "boom"
      (by decide) (by simp) rfl,
   C5_step_failure_aborts.2 failSolver 5 "b" "e" "s" 0 "boom" (by decide)⟩

/-! ## Character-level helpers for the scheme lowercasing -/

theorem char_toNat_ofNat (n : Nat) (h : n.isValidChar) :
    (Char.ofNat n).toNat = n := by
  rw [Char.ofNat, dif_pos h]
  simp [Char.ofNatAux, Char.toNat, UInt32.toNat]

theorem toLower_toNat (c : Char) :
    (c.toLower).toNat
      = if 65 ≤ c.toNat ∧ c.toNat ≤ 90 then c.toNat + 32 else c.toNat := by
  unfold Char.toLower
  by_cases h : c.toNat ≥ 65 ∧ c.toNat ≤ 90
  · rw [if_pos h, if_pos (by omega)]
    exact char_toNat_ofNat _ (by left; omega)
  · rw [if_neg h, if_neg (by omega)]

theorem toLower_idem (c : Char) : (c.toLower).toLower = c.toLower := by
  unfold Char.toLower
  by_cases h : c.toNat ≥ 65 ∧ c.toNat ≤ 90
  · have ht : (Char.ofNat (c.toNat + 32)).toNat = c.toNat + 32 :=
      char_toNat_ofNat _ (by left; omega)
    simp only [if_pos h, ht]
    rw [if_neg (by omega)]
  · simp only [if_neg h]

theorem isSchemeChar_toLower {c : Char} (h : isSchemeChar c = true) :
    isSchemeChar c.toLower = true := by
  simp only [isSchemeChar, isSchemeCharN] at *
  rw [toLower_toNat]
  split
  · rename_i hr
    simp at *
    omega
  · exact h

theorem isAsciiAlpha_toLower {c : Char} (h : isAsciiAlpha c = true) :
    isAsciiAlpha c.toLower = true := by
  simp only [isAsciiAlpha] at *
  rw [toLower_toNat]
  split
  · rename_i hr
    simp at *
    omega
  · exact h

/-! ## URL parsing lemmas -/

theorem splitOnColon_append (s t : List Char)
    (h : ∀ c ∈ s, isSchemeChar c = true) :
    splitOnColon (s ++ ':' :: t) = some (s, t) := by
  induction s with
  | nil => simp [splitOnColon]
  | cons c cs ih =>
    have hc : ¬ c = ':' := by
      intro hEq
      have := h c (List.mem_cons_self _ _)
      rw [hEq] at this
      exact absurd this (by decide)
    simp only [List.cons_append, splitOnColon, List.append_eq]
    rw [if_neg hc, ih (fun d hd => h d (List.mem_cons_of_mem _ hd))]
    rfl

theorem urlScheme_spec (url : List Char) (h : urlScheme url ≠ []) :
    (∀ c ∈ urlScheme url, isSchemeChar c = true) ∧
    (∃ a rest, urlScheme url = a :: rest ∧ isAsciiAlpha a = true) ∧
    (urlScheme url).map Char.toLower = urlScheme url := by
  rcases hsc : splitOnColon url with _ | ⟨pre, post⟩
  · exfalso
    apply h
    show (schemeSplit url).1 = []
    unfold schemeSplit
    rw [hsc]
  · rcases pre with _ | ⟨a, as⟩
    · exfalso
      apply h
      show (schemeSplit url).1 = []
      unfold schemeSplit
      rw [hsc]
    · by_cases hcond : (isAsciiAlpha a && (a :: as).all isSchemeChar) = true
      · have hval : urlScheme url = (a :: as).map Char.toLower := by
          show (schemeSplit url).1 = _
          unfold schemeSplit
          rw [hsc]
          show (if (isAsciiAlpha a && (a :: as).all isSchemeChar) = true then
              ((a :: as).map Char.toLower, post)
            else ([], url)).1 = _
          rw [if_pos hcond]
        have hpair := hcond
        rw [Bool.and_eq_true] at hpair
        obtain ⟨ha, hall⟩ := hpair
        rw [List.all_eq_true] at hall
        rw [hval]
        refine ⟨?_, ?_, ?_⟩
        · intro c hc
          rw [List.mem_map] at hc
          obtain ⟨d, hd, rfl⟩ := hc
          exact isSchemeChar_toLower (hall d hd)
        · exact ⟨a.toLower, as.map Char.toLower, rfl, isAsciiAlpha_toLower ha⟩
        · rw [List.map_map]
          exact List.map_congr_left fun c _ => toLower_idem c
      · exfalso
        apply h
        show (schemeSplit url).1 = []
        unfold schemeSplit
        rw [hsc]
        show (if (isAsciiAlpha a && (a :: as).all isSchemeChar) = true then
            ((a :: as).map Char.toLower, post)
          else ([], url)).1 = _
        rw [if_neg hcond]

theorem schemeSplit_roundtrip (s t : List Char)
    (hall : ∀ c ∈ s, isSchemeChar c = true)
    (hhead : ∃ a rest, s = a :: rest ∧ isAsciiAlpha a = true)
    (hlow : s.map Char.toLower = s) :
    schemeSplit (s ++ ':' :: t) = (s, t) := by
  obtain ⟨a, rest, rfl, ha⟩ := hhead
  have hcond : (isAsciiAlpha a && (a :: rest).all isSchemeChar) = true := by
    rw [Bool.and_eq_true, List.all_eq_true]
    exact ⟨ha, fun c hc => hall c hc⟩
  unfold schemeSplit
  rw [splitOnColon_append _ _ hall]
  show (if (isAsciiAlpha a && (a :: rest).all isSchemeChar) = true then
      ((a :: rest).map Char.toLower, t)
    else ([], (a :: rest) ++ ':' :: t)) = _
  rw [if_pos hcond, hlow]

theorem netlocSplit_spec (n t : List Char)
    (hn : ∀ c ∈ n, (!isNetlocEnd c) = true)
    (ht : t = [] ∨ ∃ r, t = '/' :: r) :
    netlocSplit ('/' :: '/' :: (n ++ t)) = (n, t) := by
  unfold netlocSplit
  rw [if_pos (by rfl)]
  have hdrop : ('/' :: '/' :: (n ++ t)).drop 2 = n ++ t := rfl
  rw [hdrop]
  rcases ht with rfl | ⟨r, rfl⟩
  · rw [List.append_nil]
    rw [List.takeWhile_eq_self_iff.mpr hn]
    rw [List.dropWhile_eq_nil_iff.mpr hn]
  · rw [List.takeWhile_append_of_pos hn, List.dropWhile_append_of_pos hn]
    have hslash : (!isNetlocEnd '/') = false := by decide
    simp [List.takeWhile, List.dropWhile, hslash]

theorem urlNetloc_chars (url : List Char) :
    ∀ c ∈ urlNetloc url, (!isNetlocEnd c) = true := by
  intro c hc
  unfold urlNetloc netlocSplit at hc
  split at hc
  · have hc2 : c ∈ List.takeWhile (fun a => !isNetlocEnd a)
        (List.drop 2 (schemeSplit url).2) := hc
    exact @List.mem_takeWhile_imp _ (fun a => !isNetlocEnd a) _ _ hc2
  · simp at hc

theorem find_origin_parts (url : List Char)
    (h1 : urlScheme url ≠ []) (h2 : urlNetloc url ≠ []) :
    find_origin_from_url url
      = urlScheme url ++ ':' :: '/' :: '/' :: urlNetloc url := by
  unfold find_origin_from_url
  rw [if_pos ⟨h1, h2⟩]

theorem urljoin_origin (url : List Char)
    (h1 : urlScheme url ≠ []) (h2 : urlNetloc url ≠ []) :
    urljoin (find_origin_from_url url) SUBMIT_PATH
      = urlScheme url ++ ':' :: '/' :: '/' :: (urlNetloc url ++ SUBMIT_PATH) := by
  obtain ⟨hall, hhead, hlow⟩ := urlScheme_spec url h1
  have hbase := find_origin_parts url h1 h2
  have hsplit :
      schemeSplit (urlScheme url ++ ':' :: '/' :: '/' :: urlNetloc url)
        = (urlScheme url, '/' :: '/' :: urlNetloc url) :=
    schemeSplit_roundtrip _ _ hall hhead hlow
  have hnet :
      netlocSplit ('/' :: '/' :: urlNetloc url) = (urlNetloc url, []) := by
    have := netlocSplit_spec (urlNetloc url) [] (urlNetloc_chars url) (Or.inl rfl)
    rw [List.append_nil] at this
    exact this
  have hs : urlScheme (find_origin_from_url url) = urlScheme url := by
    rw [hbase]
    show (schemeSplit (urlScheme url ++ ':' :: '/' :: '/' :: urlNetloc url)).1
      = urlScheme url
    rw [hsplit]
  have hn : urlNetloc (find_origin_from_url url) = urlNetloc url := by
    rw [hbase]
    show (netlocSplit
        (schemeSplit (urlScheme url ++ ':' :: '/' :: '/' :: urlNetloc url)).2).1
      = urlNetloc url
    rw [hsplit]
    show (netlocSplit ('/' :: '/' :: urlNetloc url)).1 = urlNetloc url
    rw [hnet]
  unfold urljoin
  rw [hs, hn, if_pos h2, if_pos h1]
  simp [List.append_assoc]

/-- C7: when the quiz page URL has a scheme and a host, the relative
submission path `/submit` is resolved against the page's own origin
(`scheme://netloc/submit`), and `DEFAULT_BASE` is used only when the page
URL lacks a scheme or a host. -/
theorem C7_submit_resolved_against_page_origin :
    (∀ url : List Char, urlScheme url ≠ [] → urlNetloc url ≠ [] →
      find_origin_from_url url
          = urlScheme url ++ ':' :: '/' :: '/' :: urlNetloc url
        ∧ urljoin (find_origin_from_url url) SUBMIT_PATH
          = urlScheme url ++ ':' :: '/' :: '/' :: (urlNetloc url ++ SUBMIT_PATH))
    ∧ (∀ url : List Char, ¬(urlScheme url ≠ [] ∧ urlNetloc url ≠ []) →
      find_origin_from_url url = DEFAULT_BASE) := by
  constructor
  · intro url h1 h2
    exact ⟨find_origin_parts url h1 h2, urljoin_origin url h1 h2⟩
  · intro url h
    unfold find_origin_from_url
    rw [if_neg h]

/-- C7 witness: the resolution evaluated at a concrete page URL with a
known origin and at a concrete relative page URL. -/
theorem C7_submit_resolved_against_page_origin_witness :
    (find_origin_from_url ("https://quiz.example.org/page".toList)
        = urlScheme ("https://quiz.example.org/page".toList)
            ++ ':' :: '/' :: '/'
            :: urlNetloc ("https://quiz.example.org/page".toList)
      ∧ urljoin (find_origin_from_url ("https://quiz.example.org/page".toList))
            SUBMIT_PATH
        = urlScheme ("https://quiz.example.org/page".toList)
            ++ ':' :: '/' :: '/'
            :: (urlNetloc ("https://quiz.example.org/page".toList)
                  ++ SUBMIT_PATH))
    ∧ find_origin_from_url ("/relative/path".toList) = DEFAULT_BASE :=
  ⟨C7_submit_resolved_against_page_origin.1 ("https://quiz.example.org/page".toList)
      (by decide) (by decide),
   C7_submit_resolved_against_page_origin.2 ("/relative/path".toList)
      (by decide)⟩

/-- C3 counterexample: the claim says a resolved submission URL containing
a fabrication indicator (such as the word "origin") is rejected with a
ValidationError before any POST.  For the page URL
"https://origin.example.com/q1" the resolved submission URL contains
"origin", yet `submit_answer` performs the POST to it and proceeds to
parse the reply — the code has no URL validation at all. -/
theorem C3_fabricated_url_not_rejected :
    specFabricationIndicator
        (submit_answer ("https://origin.example.com/q1".toList) "e@x" "sec"
          (.str "a") ⟨200, []⟩).1.url = true
    ∧ (submit_answer ("https://origin.example.com/q1".toList) "e@x" "sec"
          (.str "a") ⟨200, []⟩).1.url
        = "https://origin.example.com/submit".toList
    ∧ (submit_answer ("https://origin.example.com/q1".toList) "e@x" "sec"
          (.str "a") ⟨200, []⟩).2
        = .ok (parseSubmitReply []) := by
  refine ⟨by decide, by decide, ?_⟩
  rfl

/-- C3 as amended: `submit_answer` performs no validation of the resolved
submission URL — it always resolves `urljoin(origin, SUBMIT_PATH)` and
attempts the POST to that URL unconditionally; by construction the
resolved URL is never empty and never the sentinel "none"
(case-insensitively), so the null/"none" rejections described by the spec
can never fire, and fabrication indicators are not checked. -/
theorem C3_submit_url_never_null_or_none :
    ∀ (page_url : List Char) (email secret : String) (answer : JVal)
      (resp : HttpResponse),
      (submit_answer page_url email secret answer resp).1.url
          = urljoin (find_origin_from_url page_url) SUBMIT_PATH
        ∧ (submit_answer page_url email secret answer resp).1.url ≠ []
        ∧ ((submit_answer page_url email secret answer resp).1.url.map
              Char.toLower ≠ "none".toList) := by
  intro page_url email secret answer resp
  refine ⟨rfl, ?_⟩
  have hurl : (submit_answer page_url email secret answer resp).1.url
      = urljoin (find_origin_from_url page_url) SUBMIT_PATH := rfl
  by_cases h : urlScheme page_url ≠ [] ∧ urlNetloc page_url ≠ []
  · have hj := urljoin_origin page_url h.1 h.2
    rw [hurl, hj]
    have hlen : (urlScheme page_url
        ++ ':' :: '/' :: '/' :: (urlNetloc page_url ++ SUBMIT_PATH)).length
        = (urlScheme page_url).length
            + (3 + ((urlNetloc page_url).length + 7)) := by
      simp [List.length_append, SUBMIT_PATH]
      omega
    constructor
    · intro hnil
      have := congrArg List.length hnil
      rw [hlen] at this
      simp at this
    · intro heq
      have := congrArg List.length heq
      rw [List.length_map, hlen] at this
      have h4 : ("none".toList).length = 4 := by decide
      rw [h4] at this
      omega
  · have hfo : find_origin_from_url page_url = DEFAULT_BASE := by
      unfold find_origin_from_url
      rw [if_neg h]
    rw [hurl, hfo]
    exact ⟨by decide, by decide⟩

/-- C6 counterexample: the claim says the next-step URL is taken from the
first of the accepted field names that is *present* in the reply.  In the
reply where "url" is present but empty and "next" is "/b", the first
present field is "url" with value "", but the code returns "/b" — Python's
`or` takes the first *truthy* value, not the first present one. -/
theorem C6_first_present_refuted :
    nextUrlFirstPresent [("url", JVal.str ""), ("next", JVal.str "/b")]
        = some (JVal.str "")
    ∧ (parseSubmitReply [("url", JVal.str ""), ("next", JVal.str "/b")]).next_url
        = JVal.str "/b"
    ∧ JVal.str "" ≠ JVal.str "/b" := by
  refine ⟨rfl, rfl, by decide⟩

/-- C6 as amended: a reply without the key `correct` parses with
`correct = false`, and the next-step URL is the first *truthy* value (in
Python's sense: non-null, non-empty) among the fields `url`, `next`,
`next_url` in that order, with the `next_url` value as the final
fallback. -/
theorem C6_reply_parsing :
    (∀ j, jfind j "correct" = none →
      (parseSubmitReply j).correct = JVal.bool false)
    ∧ (∀ j, (parseSubmitReply j).next_url
        = match [jget j "url", jget j "next", jget j "next_url"].find?
            JVal.truthy with
          | some v => v
          | Option.none => jget j "next_url") := by
  constructor
  · intro j h
    simp [parseSubmitReply, jgetD, h]
  · intro j
    simp only [parseSubmitReply, pyor]
    by_cases h1 : (jget j "url").truthy
      <;> by_cases h2 : (jget j "next").truthy
      <;> by_cases h3 : (jget j "next_url").truthy
      <;> simp [List.find?, h1, h2, h3]

/-- C6 witness: the amended parsing evaluated on concrete replies. -/
theorem C6_reply_parsing_witness :
    (parseSubmitReply []).correct = JVal.bool false
    ∧ ((parseSubmitReply [("next", JVal.str "/b")]).next_url
        = match [jget [("next", JVal.str "/b")] "url",
            jget [("next", JVal.str "/b")] "next",
            jget [("next", JVal.str "/b")] "next_url"].find? JVal.truthy with
          | some v => v
          | Option.none => jget [("next", JVal.str "/b")] "next_url") :=
  ⟨C6_reply_parsing.1 [] rfl, C6_reply_parsing.2 [("next", JVal.str "/b")]⟩

/-- C10: the `answer` field of the payload that `solve_single_quiz`
submits is always a string — the computed answer converted with `str()`
and stripped — never a dict, list, number, boolean or null, whatever
Python value the answer computation produced. -/
theorem C10_answer_payload_always_string :
    ∀ (url : List Char) (email secret : String) (computed : PyVal)
      (resp : HttpResponse),
      (solve_single_quiz url email secret computed resp).1.payload.answer
          = JVal.str (pyStrip (pyStr computed))
        ∧ ((solve_single_quiz url email secret computed resp).1.payload.answer
            ).isStr = true := by
  intro url email secret computed resp
  exact ⟨rfl, rfl⟩

/-! ## Lemmas about `clean_code_fences` -/

theorem fence_toList : "```".toList = [btick, btick, btick] := by
  decide

theorem beforeFence_fence_prefix (xs : List Char) :
    beforeFence ("```".toList ++ xs) = some ([], xs) := by
  rw [fence_toList]
  show beforeFence (btick :: btick :: btick :: xs) = some ([], xs)
  unfold beforeFence
  rw [if_pos]
  · rfl
  · rw [fence_toList]
    rfl

theorem beforeFence_no_fence_append (inner : List Char)
    (h : beforeFence inner = none) :
    beforeFence (inner ++ '\n' :: "```".toList)
      = some (inner ++ ['\n'], []) := by
  induction inner with
  | nil => decide
  | cons c cs ih =>
    unfold beforeFence at h
    by_cases hcond : c :: cs.take 2 = "```".toList
    · rw [if_pos hcond] at h
      exact absurd h (by simp)
    · rw [if_neg hcond] at h
      have hcs : beforeFence cs = none := by
        cases hbc : beforeFence cs with
        | none => rfl
        | some p => rw [hbc] at h; simp at h
      show beforeFence (c :: (cs ++ '\n' :: "```".toList)) = _
      unfold beforeFence
      rw [if_neg ?hc2]
      · rw [ih hcs]
        rfl
      case hc2 =>
        rcases cs with _ | ⟨d, rest⟩
        · intro hEq
          rw [fence_toList] at hEq
          have h2 := (List.cons.injEq _ _ _ _).mp hEq
          exact absurd h2.2 (by decide)
        · rcases rest with _ | ⟨e, rest2⟩
          · intro hEq
            rw [fence_toList] at hEq
            have h2 := (List.cons.injEq _ _ _ _).mp hEq
            have h3 : [d, '\n'] = [btick, btick] := h2.2
            have h4 := (List.cons.injEq _ _ _ _).mp h3
            exact absurd h4.2 (by decide)
          · intro hEq
            apply hcond
            have htk : ((d :: e :: rest2)
                ++ '\n' :: "```".toList).take 2 = [d, e] := rfl
            rw [htk] at hEq
            exact hEq

theorem stripChars_append_newline (l : List Char) :
    stripChars (l ++ ['\n']) = stripChars l := by
  unfold stripChars
  rw [List.reverse_append]
  show ((('\n' :: l.reverse).dropWhile pyIsSpace).reverse).dropWhile pyIsSpace
    = _
  rw [List.dropWhile_cons_of_pos (by decide)]

/-- C8 counterexample: the claim says `clean_code_fences` returns exactly
the inner content of the fence.  For the untagged block around the inner
content " x" the code returns "x" — the group is stripped, so surrounding
whitespace of the inner content is lost. -/
theorem C8_exact_inner_refuted :
    clean_code_fences (fencedBlock [] (" x".toList)) = "x".toList
    ∧ clean_code_fences (fencedBlock [] (" x".toList)) ≠ " x".toList := by
  constructor
  · decide
  · decide

/-- C8 as amended: for a model response wrapped in a fenced block (with a
word-character language tag, possibly empty, and inner content containing
no triple-backtick), `clean_code_fences` returns the inner content with
surrounding whitespace stripped. -/
theorem C8_fenced_block_stripped :
    ∀ (tag inner : List Char),
      (∀ c ∈ tag, isWordCharPy c = true) →
      beforeFence inner = none →
      clean_code_fences (fencedBlock tag inner) = stripChars inner := by
  intro tag inner htag hinner
  have h1 : fencedBlock tag inner
      = "```".toList ++ (tag ++ '\n' :: (inner ++ '\n' :: "```".toList)) := by
    unfold fencedBlock
    simp [List.append_assoc]
  have hopen : beforeFence (fencedBlock tag inner)
      = some ([], tag ++ '\n' :: (inner ++ '\n' :: "```".toList)) := by
    rw [h1]
    exact beforeFence_fence_prefix _
  have htake : (tag ++ '\n' :: (inner ++ '\n' :: "```".toList)).takeWhile
      isWordCharPy = tag := by
    rw [List.takeWhile_append_of_pos htag]
    rw [List.takeWhile_cons_of_neg (by decide)]
    exact List.append_nil _
  have htail : fenceTail (tag ++ '\n' :: (inner ++ '\n' :: "```".toList))
      = '\n' :: (inner ++ '\n' :: "```".toList) := by
    unfold fenceTail
    rw [htake, List.drop_left]
  have hclose : beforeFence (inner ++ '\n' :: "```".toList)
      = some (inner ++ ['\n'], []) :=
    beforeFence_no_fence_append inner hinner
  have hfi : fenceInner (fencedBlock tag inner) = some (inner ++ ['\n']) := by
    simp only [fenceInner, hopen, htail]
    rw [if_pos (by rfl)]
    have hdrop : ('\n' :: (inner ++ '\n' :: "```".toList)).drop 1
        = inner ++ '\n' :: "```".toList := rfl
    rw [hdrop]
    simp only [hclose]
  simp only [clean_code_fences, hfi]
  exact stripChars_append_newline inner

/-- C8 witness: the amended statement evaluated at a concrete tagged
block. -/
theorem C8_fenced_block_stripped_witness :
    clean_code_fences (fencedBlock ("py".toList) (" print 1 ".toList))
      = stripChars (" print 1 ".toList) :=
  C8_fenced_block_stripped ("py".toList) (" print 1 ".toList)
    (by decide) (by decide)

/-! ## Theorems about the `scrape_text` token extraction -/

/-- C9 counterexample: the claim says a token adjacent to a labeling word
is preferred over an unlabeled bare token.  In the text
"QQQQQ5 and secret: abcd" the label-adjacent token is "abcd" and the
unlabeled bare uppercase token is "QQQQQ5"; the code returns "QQQQQ5" —
the bare-uppercase search runs first. -/
theorem C9_label_preference_refuted :
    searchSecretLabel ("QQQQQ5 and secret: abcd".toList)
        = some ("abcd".toList)
    ∧ searchUpper ("QQQQQ5 and secret: abcd".toList)
        = some ("QQQQQ5".toList)
    ∧ scrape_text_extract ("QQQQQ5 and secret: abcd".toList)
        = "QQQQQ5".toList
    ∧ "QQQQQ5".toList ≠ "abcd".toList := by
  refine ⟨by decide, by decide, by decide, by decide⟩

/-- C9 as amended: when both token shapes are present the *unlabeled* bare
uppercase token is returned in preference to the label-adjacent one (the
bare-uppercase search runs first and its result is always returned when it
matches); the label-adjacent token is returned only when no bare uppercase
token exists; and when neither is found the sentinel "UNKNOWN" is returned
instead of an error. -/
theorem C9_extraction_order :
    (∀ (text t : List Char), searchUpper text = some t →
      scrape_text_extract text = t)
    ∧ (∀ (text t : List Char), searchUpper text = none →
      searchSecretLabel text = some t → scrape_text_extract text = t)
    ∧ (∀ text : List Char, searchUpper text = none →
      searchSecretLabel text = none →
      scrape_text_extract text = "UNKNOWN".toList) := by
  refine ⟨?_, ?_, ?_⟩
  · intro text t h
    simp only [scrape_text_extract, h]
  · intro text t h1 h2
    simp only [scrape_text_extract, h1, h2]
  · intro text h1 h2
    simp only [scrape_text_extract, h1, h2]

/-- C9 witness: the amended extraction order evaluated at concrete
texts. -/
theorem C9_extraction_order_witness :
    scrape_text_extract ("QQQQQ5 and secret: abcd".toList) = "QQQQQ5".toList
    ∧ scrape_text_extract ("the secret: xYz123 ok".toList) = "xYz123".toList
    ∧ scrape_text_extract ("nothing here".toList) = "UNKNOWN".toList :=
  ⟨C9_extraction_order.1 ("QQQQQ5 and secret: abcd".toList) ("QQQQQ5".toList)
      (by decide),
   C9_extraction_order.2.1 ("the secret: xYz123 ok".toList) ("xYz123".toList)
      (by decide) (by decide),
   C9_extraction_order.2.2 ("nothing here".toList) (by decide) (by decide)⟩

end QuizSolver
